import Mathlib

/-!
Verification of the keytao-bot repository (a NoneBot chat bot for the keytao
input method) against its natural-language specification.

The Python source is shallowly embedded: Python strings are modelled as Lean
`String` / `List Char` (Python strings are sequences of Unicode code points,
exactly `List Char`), JSON values as the inductive `JVal`, dict lookups with
defaults via `Option.getD`, and each network-facing function is modelled as a
pure function of the (abstracted) backend response.  Exceptions raised by the
`httpx` layer are modelled by the failure constructor of the response type,
mirroring the `try/except` blocks of the source that convert every exception
into an error dictionary.
-/

namespace KeytaoBot

/-! ## Python string primitives

`charsStartsWith` / `charsContains` model Python's `needle in haystack`
substring test on code-point lists; `pyLower` models `str.lower` (ASCII case
folding, the identity on the CJK text used by the bot); `pyStrip` models
`str.strip()` with no arguments. -/

def charsStartsWith : List Char → List Char → Bool
  | _, [] => true
  | [], _ :: _ => false
  | a :: as, b :: bs => a == b && charsStartsWith as bs

def charsContains : List Char → List Char → Bool
  | [], needle => needle.isEmpty
  | h :: t, needle => charsStartsWith (h :: t) needle || charsContains t needle

def pyContains (hay needle : String) : Bool :=
  charsContains hay.data needle.data

def pyLower (s : String) : String :=
  ⟨s.data.map Char.toLower⟩

def pyStripChars (l : List Char) : List Char :=
  ((l.dropWhile Char.isWhitespace).reverse.dropWhile Char.isWhitespace).reverse

def pyStrip (s : String) : String :=
  ⟨pyStripChars s.data⟩

/-- Python `str.split('\n')` on a code-point list: always returns at least one
(possibly empty) line, one extra line per newline character. -/
def splitLinesChars : List Char → List (List Char)
  | [] => [[]]
  | c :: rest =>
    match splitLinesChars rest with
    | [] => [[]]
    | l :: ls => if c == '\n' then [] :: l :: ls else (c :: l) :: ls

/-- Python `'\n'.join(lines)`. -/
def joinLines : List (List Char) → List Char
  | [] => []
  | [l] => l
  | l :: l2 :: ls => l ++ '\n' :: joinLines (l2 :: ls)

/-- Python `dict.fromkeys` de-duplication (keeps the first occurrence),
with an accumulator of already-seen elements. -/
def pyDedupAux {α : Type} [BEq α] (seen : List α) : List α → List α
  | [] => []
  | a :: l => if seen.contains a then pyDedupAux seen l else a :: pyDedupAux (a :: seen) l

def pyDedup {α : Type} [BEq α] (l : List α) : List α := pyDedupAux [] l

/-! ## JSON values

Tool arguments and tool results travel through the orchestrator as JSON
(`json.loads` / `json.dumps` in the source).  `truthyV` models Python's truth
test on the decoded value (used by `if has_req_confirm or has_warnings` and by
`function_args.get("confirmed", False)`). -/

inductive JVal where
  | null
  | bool (b : Bool)
  | num (n : Int)
  | str (s : String)
  | arr (elems : List JVal)
  | obj (fields : List (String × JVal))

def truthyV : JVal → Bool
  | .null => false
  | .bool b => b
  | .num n => n != 0
  | .str s => !(s == "")
  | .arr elems => !elems.isEmpty
  | .obj fields => !fields.isEmpty

/-- Python `d.get(k)` on a decoded JSON object (`None` when absent or when the
value is not an object). -/
def jgetFields : List (String × JVal) → String → Option JVal
  | [], _ => none
  | (k, v) :: t, key => if k == key then some v else jgetFields t key

def jget : JVal → String → Option JVal
  | .obj fields, key => jgetFields fields key
  | _, _ => none

/-- Python truthiness of `d.get(k)` where a missing key defaults to a falsy
value (`None` / `False`). -/
def truthy (v : Option JVal) : Bool :=
  match v with
  | none => false
  | some v => truthyV v

/-- Python `d[k] = v` on a JSON object: replace the value in place when the key
exists (dict keys are unique, so the first hit is the key's slot), append
otherwise. -/
def jsetFields : List (String × JVal) → String → JVal → List (String × JVal)
  | [], key, v => [(key, v)]
  | (k, w) :: t, key, v =>
    if k == key then (key, v) :: t else (k, w) :: jsetFields t key v

def jset : JVal → String → JVal → JVal
  | .obj fields, key, v => .obj (jsetFields fields key v)
  | x, _, _ => x

/-! ## Keytao lookup skill (`keytao_bot/skills/keytao-lookup/tools.py`)

`keytao_lookup_by_code` performs one backend GET; the backend interaction is
abstracted into `BackendResp`: `ok phrases` is an HTTP 200 whose decoded JSON
carried `data.get("phrases", [])`, and `fail e` covers every raised exception
(transport error, `raise_for_status` on a non-2xx status, invalid JSON) that
the source's `except Exception` clause converts into an error dictionary. -/

structure RawPhrase where
  word : Option String := none
  code : Option String := none
  weight : Option Int := none
  type : Option String := none
deriving DecidableEq

inductive BackendResp where
  | ok (phrases : List RawPhrase)
  | fail (error : String)

structure ResultPhrase where
  word : String
  code : String
  weight : Int
  type : String
  type_label : String
  position : Nat
  position_label : String
deriving DecidableEq

structure LookupResult where
  success : Bool
  code : String
  error : Option String := none
  phrases : List ResultPhrase
deriving DecidableEq

/-- Python `p.get("weight", 0)`. -/
def pweight (p : RawPhrase) : Int := p.weight.getD 0

/-- Python `p.get("code", "")`. -/
def pcode (p : RawPhrase) : String := p.code.getD ""

/-- The `type_labels` dict of the source with its `.get(t, t)` fallback. -/
def type_labels (t : String) : String :=
  match t with
  | "Single" => "单字"
  | "Phrase" => "词组"
  | "Supplement" => "补充词条"
  | "Symbol" => "符号"
  | "Link" => "链接"
  | "CSS" => "声笔笔"
  | "CSSSingle" => "声笔笔单字"
  | "English" => "英文"
  | other => other

/-- The `position_labels` dict together with its `f"{idx + 1}重"` fallback. -/
def position_labels (idx : Nat) : String :=
  match idx with
  | 0 => ""
  | 1 => "二重"
  | 2 => "三重"
  | 3 => "四重"
  | 4 => "五重"
  | 5 => "六重"
  | _ => toString (idx + 1) ++ "重"

/-- The key of `sorted(exact_matches, key=lambda x: x.get("weight", 0))`. -/
def wle (a b : RawPhrase) : Prop := pweight a ≤ pweight b

instance : DecidableRel wle := fun a b =>
  inferInstanceAs (Decidable (pweight a ≤ pweight b))

instance : IsTotal RawPhrase wle := ⟨fun _ _ => Int.le_total _ _⟩

instance : IsTrans RawPhrase wle := ⟨fun _ _ _ => Int.le_trans⟩

/-- The `for idx, p in enumerate(sorted_phrases)` loop building
`result_phrases`; `total` is `len(sorted_phrases)` and `idx` the running
index. -/
def build_result_phrases (total : Nat) (idx : Nat) : List RawPhrase → List ResultPhrase
  | [] => []
  | p :: rest =>
    { word := p.word.getD ""
      code := pcode p
      weight := pweight p
      type := p.type.getD ""
      type_label := type_labels (p.type.getD "")
      position := idx
      position_label := if 1 < total ∧ 0 < idx then position_labels idx else "" } ::
    build_result_phrases total (idx + 1) rest

def keytao_lookup_by_code (code : String) (resp : BackendResp) : LookupResult :=
  match resp with
  | .fail e => { success := false, code := code, error := some e, phrases := [] }
  | .ok phrases =>
    if phrases.isEmpty then
      { success := true, code := code, phrases := [] }
    else
      let exact_matches := phrases.filter (fun p => pcode p == code)
      if exact_matches.isEmpty then
        { success := true, code := code, phrases := [] }
      else
        let sorted_phrases := exact_matches.insertionSort wle
        { success := true, code := code
          phrases := build_result_phrases sorted_phrases.length 0 sorted_phrases }

/-! ## Keytao create skill (`keytao_bot/skills/keytao-create/tools.py`)

The mutation tools are modelled by the HTTP requests they issue.
`keytao_create_phrase` builds `request_data` exactly as the source's dict
literal and performs a single POST; `keytao_submit_batch(platform,
platform_id, batch_id)` takes an explicit `batch_id` parameter and POSTs to
`/api/bot/batches/{batch_id}/submit`.  Neither function issues any GET. -/

inductive HttpReq where
  | get (url : String) (params : List (String × String))
  | post (url : String) (body : JVal)

def isPost : HttpReq → Bool
  | .post _ _ => true
  | .get _ _ => false

/-- The keyword parameters of `keytao_create_phrase`, with the source's
defaults. -/
structure CreateArgs where
  platform : String
  platform_id : String
  word : String
  code : String
  action : String := "Create"
  old_word : Option String := none
  type : String := "Phrase"
  remark : Option String := none
  confirmed : Bool := false

/-- Python `None` → JSON `null`, a string otherwise. -/
def optStr : Option String → JVal
  | none => .null
  | some s => .str s

/-- The `request_data` dict literal of `keytao_create_phrase`. -/
def create_request_data (a : CreateArgs) : JVal :=
  .obj [("platform", .str a.platform),
        ("platformId", .str a.platform_id),
        ("items", .arr [.obj [("action", .str a.action),
                              ("word", .str a.word),
                              ("oldWord", optStr a.old_word),
                              ("code", .str a.code),
                              ("type", .str a.type),
                              ("remark", optStr a.remark)]]),
        ("confirmed", .bool a.confirmed)]

/-- Every HTTP request `keytao_create_phrase` issues (given a configured bot
token): the single POST to the batch pull-request endpoint. -/
def keytao_create_phrase_requests (base : String) (a : CreateArgs) : List HttpReq :=
  [.post (base ++ "/api/bot/pull-requests/batch") (create_request_data a)]

/-- The `url` f-string of `keytao_submit_batch`: the batch id interpolated into
the path comes from the tool's own `batch_id` parameter. -/
def keytao_submit_batch_url (base batch_id : String) : String :=
  base ++ "/api/bot/batches/" ++ batch_id ++ "/submit"

/-- Every HTTP request `keytao_submit_batch` issues (given a configured bot
token). -/
def keytao_submit_batch_requests (base platform platform_id batch_id : String) :
    List HttpReq :=
  [.post (keytao_submit_batch_url base batch_id)
     (.obj [("platform", .str platform), ("platformId", .str platform_id)])]

/-! ## Keytao docs skill (`keytao_bot/skills/keytao-docs/tools.py`) -/

def DOCS_MAPPING : List (String × List String) :=
  [("规则", ["guide/learn-xkjd/phonetics-rules.md", "guide/learn-xkjd/stroke-rules.md"]),
   ("学习", ["guide/learn-xkjd/index.md", "guide/start-xkjd/index.md",
             "guide/learn-xkjd/layouts.md"]),
   ("安装", ["guide/get-xkjd/download-and-install.md", "guide/get-xkjd/index.md"]),
   ("字根", ["guide/learn-xkjd/stroke-rules.md", "guide/learn-xkjd/layouts.md"]),
   ("单字", ["guide/start-xkjd/characters.md"]),
   ("词组", ["guide/start-xkjd/phrases.md"]),
   ("顶功", ["guide/advance-in-xkjd/top-up.md"]),
   ("简码", ["guide/advance-in-xkjd/shorthand.md"])]

/-- Python `if keyword in query_lower or keyword in query`. -/
def keyword_matches (query keyword : String) : Bool :=
  pyContains (pyLower query) keyword || pyContains query keyword

/-- The `docs_to_fetch.extend(doc_paths)` loop over `DOCS_MAPPING.items()`. -/
def collected_docs (query : String) : List String :=
  ((DOCS_MAPPING.filter (fun kv => keyword_matches query kv.1)).map
    (fun kv => kv.2)).flatten

/-- Document selection of `keytao_fetch_docs`: fall back to the overview
document when nothing matched, then de-duplicate preserving first-seen order
(`dict.fromkeys`) and cap at 3 documents. -/
def docs_to_fetch (query : String) : List String :=
  let collected := collected_docs query
  let withDefault := if collected.isEmpty then ["guide/index.md"] else collected
  (pyDedup withDefault).take 3

/-- Python `lines[1:].index('---')` with the surrounding `try/except ValueError`. -/
def strip_frontmatter (lines : List (List Char)) : List (List Char) :=
  match lines with
  | [] => []
  | first :: rest =>
    if pyStripChars first == ['-', '-', '-'] then
      match rest.findIdx? (fun l => l == ['-', '-', '-']) with
      | some i => (first :: rest).drop (i + 2)
      | none => first :: rest
    else first :: rest

/-- Function `clean_markdown`: strip a leading front-matter block, re-join and strip
surrounding whitespace, then truncate to 2000 code points appending
`"\n\n..."` when longer. -/
def clean_markdown (content : List Char) : List Char :=
  let lines := splitLinesChars content
  let kept := strip_frontmatter lines
  let cleaned := pyStripChars (joinLines kept)
  if 2000 < cleaned.length then
    cleaned.take 2000 ++ ('\n' :: '\n' :: ['.', '.', '.'])
  else cleaned

/-! ## Conversation history store (`keytao_bot/utils/history_store.py`)

The SQLite table is modelled as a list of rows in insertion order.  The
`DATETIME DEFAULT CURRENT_TIMESTAMP` column is an explicit `Nat` clock input
to `add_message`; the `UNIQUE(platform, user_id, timestamp)` constraint shows
up as the duplicate check that drops the insert (the source catches
`sqlite3.IntegrityError` and ignores the message).  `ORDER BY timestamp DESC
LIMIT ?` is modelled by a descending insertion sort followed by `take`. -/

structure Row where
  platform : String
  user_id : String
  role : String
  content : String
  timestamp : Nat
deriving DecidableEq

structure HMsg where
  role : String
  content : String
  timestamp : Nat
deriving DecidableEq

def rowMatches (platform user_id : String) (r : Row) : Bool :=
  r.platform == platform && r.user_id == user_id

def add_message (st : List Row) (platform user_id role content : String)
    (now : Nat) : List Row :=
  if st.any (fun r => r.platform == platform && r.user_id == user_id &&
      r.timestamp == now) then st
  else st ++ [{ platform := platform, user_id := user_id, role := role,
                content := content, timestamp := now }]

/-- SQL `ORDER BY timestamp DESC`. -/
def tsDesc (a b : Row) : Prop := b.timestamp ≤ a.timestamp

instance : DecidableRel tsDesc := fun a b =>
  inferInstanceAs (Decidable (b.timestamp ≤ a.timestamp))

instance : IsTotal Row tsDesc := ⟨fun _ _ => Nat.le_total _ _⟩

instance : IsTrans Row tsDesc := ⟨fun _ _ _ h h' => Nat.le_trans h' h⟩

def get_history (st : List Row) (platform user_id : String) (limit : Nat) :
    List HMsg :=
  ((((st.filter (rowMatches platform user_id)).insertionSort tsDesc).take
      limit).reverse).map
    (fun r => { role := r.role, content := r.content, timestamp := r.timestamp })

/-- SQL `DELETE ... WHERE platform = ? AND user_id = ?` returning
`cursor.rowcount` and the remaining table. -/
def clear_history (st : List Row) (platform user_id : String) : Nat × List Row :=
  ((st.filter (rowMatches platform user_id)).length,
   st.filter (fun r => !rowMatches platform user_id r))

/-! ## AI chat orchestrator (`keytao_bot/plugins/openai_chat.py`)

Chat history sent to the model is a list of `{role, content}` messages; a tool
result's content is the `json.dumps` of the tool's return value, modelled as
the structured value itself (`json.loads` of the dump gives it back), and an
assistant message whose `content` was `None` is modelled by `MsgC.null`. -/

inductive MsgC where
  | null
  | str (s : String)
  | json (v : JVal)

structure Msg where
  role : String
  content : MsgC

def negation_keywords : List String :=
  ["不", "别", "不要", "不用", "取消", "算了", "不行", "不对"]

def confirmation_keywords : List String :=
  ["确认", "是", "好", "可以", "同意", "yes", "ok", "确定"]

def warning_keywords : List String :=
  ["警告", "确认", "重码", "多编码", "requiresConfirmation"]

/-- One step of the recent-message scan: a tool result whose decoded JSON has
a truthy `requiresConfirmation` or `warnings` field, or a non-empty assistant
text containing a warning keyword.  (A tool content that fails `json.loads`
or is not a dict is skipped by the source's `except` clause; here those cases
fall through to `false`.) -/
def msg_shows_warning (m : Msg) : Bool :=
  match m.role, m.content with
  | "tool", .json v => truthy (jget v "requiresConfirmation") || truthy (jget v "warnings")
  | "assistant", .str c => !(c == "") && warning_keywords.any (fun kw => pyContains c kw)
  | _, _ => false

/-- The scan over `messages[-min(30, len(messages)):]` in reverse order; the
source breaks at the first hit, which for the resulting Boolean is `any`. -/
def had_warning (messages : List Msg) : Bool :=
  let check_count := min 30 messages.length
  ((messages.drop (messages.length - check_count)).reverse).any msg_shows_warning

/-- The smart-detection block guarding `keytao_create_phrase` tool calls:
re-derive confirmation intent from the raw user text
(`event.get_plaintext().strip().lower()`), give negation keywords priority,
and force `confirmed=true` only when the model omitted it and a recent
message shows an unresolved warning. -/
def autofix_confirmed (plaintext : String) (function_args : JVal)
    (messages : List Msg) : JVal :=
  let user_message := pyLower (pyStrip plaintext)
  let confirmed := truthy (jget function_args "confirmed")
  let has_negation := negation_keywords.any (fun kw => pyContains user_message kw)
  let is_confirming := confirmation_keywords.any (fun kw => pyContains user_message kw)
  if is_confirming && !confirmed && !has_negation then
    if had_warning messages then jset function_args "confirmed" (.bool true)
    else function_args
  else function_args

/-- The platform auto-injection of `call_tool_function`: for the two mutation
tools, when a bot and event are present (`ctx = some (platform, platform_id)`
derived by `extract_platform_info`), overwrite the model-supplied `platform`
and `platform_id` arguments. -/
def inject_platform_args (tool_name : String) (arguments : JVal)
    (ctx : Option (String × String)) : JVal :=
  if tool_name == "keytao_create_phrase" || tool_name == "keytao_submit_batch" then
    match ctx with
    | some (platform, platform_id) =>
      jset (jset arguments "platform" (.str platform)) "platform_id" (.str platform_id)
    | none => arguments
  else arguments

/-- Function `call_tool_function`: registry lookup, platform injection, execution.  The
embedded tools are total functions `JVal → JVal`; the source additionally
converts a raised exception into `{"error": str(e)}`. -/
def call_tool_function (registry : String → Option (JVal → JVal))
    (tool_name : String) (arguments : JVal) (ctx : Option (String × String)) : JVal :=
  match registry tool_name with
  | none => .obj [("error", .str ("Tool " ++ tool_name ++ " not found"))]
  | some f => f (inject_platform_args tool_name arguments ctx)

/-- A model-requested tool call, with `arguments` already decoded from JSON. -/
structure ToolCall where
  id : String
  name : String
  args : JVal

/-- A chat-completion response: either an empty `choices` list or the first
choice's finish reason, message content, and tool-call list. -/
inductive LLMResp where
  | noChoices
  | reply (finish_reason : String) (content : Option String) (tool_calls : List ToolCall)

def no_reply_msg : String := "呜呜，AI 好像没有回复 qwq 要不再试一次？"

def too_long_msg : String := "呜呜，处理太久了 qwq 要不再试一次？"

def contentMsgC : Option String → MsgC
  | none => .null
  | some s => .str s

/-- Python `content or default` on an optional string. -/
def pyOrStr (c : Option String) (d : String) : String :=
  match c with
  | none => d
  | some s => if s == "" then d else s

/-- The `for tool_call in choice.message.tool_calls` loop: run the
smart-detection auto-fix for `keytao_create_phrase` against the messages
accumulated so far, execute the call, and append the tool-result message. -/
def exec_tool_calls (registry : String → Option (JVal → JVal))
    (ctx : Option (String × String)) (plaintext : String)
    (tool_calls : List ToolCall) (messages : List Msg) : List Msg :=
  tool_calls.foldl (fun msgs tc =>
    let args := if tc.name == "keytao_create_phrase" then
        autofix_confirmed plaintext tc.args msgs
      else tc.args
    let result := call_tool_function registry tc.name args ctx
    msgs ++ [{ role := "tool", content := .json result }]) messages

/-- The `for iteration in range(max_iterations)` tool-calling loop.  `fuel`
is the number of remaining iterations and the returned `Nat` counts
chat-completion requests actually made; falling off the loop returns the
fixed "took too long" apology. -/
def tool_call_loop (registry : String → Option (JVal → JVal))
    (ctx : Option (String × String)) (plaintext : String)
    (llm : List Msg → LLMResp) :
    Nat → List Msg → Nat → Nat × Option String
  | 0, _, calls => (calls, some too_long_msg)
  | fuel + 1, messages, calls =>
    match llm messages with
    | .noChoices => (calls + 1, some no_reply_msg)
    | .reply finish_reason content tool_calls =>
      if finish_reason == "stop" || tool_calls.isEmpty then
        (calls + 1, content)
      else if finish_reason == "tool_calls" && !tool_calls.isEmpty then
        let withAssistant := messages ++
          [{ role := "assistant", content := contentMsgC content }]
        let withResults := exec_tool_calls registry ctx plaintext tool_calls withAssistant
        tool_call_loop registry ctx plaintext llm fuel withResults (calls + 1)
      else
        (calls + 1, some (pyOrStr content no_reply_msg))

/-- Function `get_openai_response` from the initial message list onward (system prompt,
replayed history and the current user message are already assembled into
`initial`); `max_iterations` defaults to 6 as in the source. -/
def get_openai_response (registry : String → Option (JVal → JVal))
    (ctx : Option (String × String)) (plaintext : String)
    (llm : List Msg → LLMResp) (initial : List Msg)
    (max_iterations : Nat := 6) : Nat × Option String :=
  tool_call_loop registry ctx plaintext llm max_iterations initial 0

/-! ## Concrete data used by witnesses and counterexamples -/

/-- A tool-result message recording an unresolved duplicate-code warning, as
fed back to the model by an earlier `keytao_create_phrase` call. -/
def warn_tool_msg : Msg :=
  { role := "tool"
    content := .json (.obj [("success", .bool false),
                            ("requiresConfirmation", .bool true)]) }

/-- A history table holding 40 rows (20 conversation rounds) for the identity
("qq", "1"), written at strictly increasing timestamps 1..40 — the state after
40 successful `add_message` inserts. -/
def demo_history_rows : List Row :=
  (List.range 40).map (fun i =>
    { platform := "qq", user_id := "1", role := "user", content := "hi",
      timestamp := i + 1 })

/-! ## Helper lemmas -/

theorem build_result_phrases_map_position (total idx : Nat) (l : List RawPhrase) :
    (build_result_phrases total idx l).map (fun r => r.position) =
      List.range' idx l.length := by
  induction l generalizing idx with
  | nil => rfl
  | cons p rest ih =>
    simp [build_result_phrases, List.range'_succ, ih]

theorem build_result_phrases_map_label (total idx : Nat) (l : List RawPhrase) :
    (build_result_phrases total idx l).map (fun r => r.position_label) =
      (List.range' idx l.length).map
        (fun i => if 1 < total ∧ 0 < i then position_labels i else "") := by
  induction l generalizing idx with
  | nil => rfl
  | cons p rest ih =>
    simp [build_result_phrases, List.range'_succ, ih]

theorem build_result_phrases_map_weight (total idx : Nat) (l : List RawPhrase) :
    (build_result_phrases total idx l).map (fun r => r.weight) = l.map pweight := by
  induction l generalizing idx with
  | nil => rfl
  | cons p rest ih =>
    simp [build_result_phrases, ih]

theorem build_result_phrases_map_code (total idx : Nat) (l : List RawPhrase) :
    (build_result_phrases total idx l).map (fun r => r.code) = l.map pcode := by
  induction l generalizing idx with
  | nil => rfl
  | cons p rest ih =>
    simp [build_result_phrases, ih]

theorem build_result_phrases_length (total idx : Nat) (l : List RawPhrase) :
    (build_result_phrases total idx l).length = l.length := by
  induction l generalizing idx with
  | nil => rfl
  | cons p rest ih =>
    simp [build_result_phrases, ih]

/-! ## C4, C5, C6 — lookup skill -/

/-- C4: for every backend response, `keytao_lookup_by_code` sorts the exact
matches ascending by weight and gives each entry a `position` equal to its
0-based index in that sorted list; `position_label` is "" at index 0,
二重/三重/… at later indices, attached only when the result has more than one
entry.  In particular weights [100, 105, 110] yield labels
["", "二重", "三重"], not labels computed from weight differences. -/
theorem C4_lookup_position_labels_are_index_based :
    (∀ (code : String) (raws : List RawPhrase),
      ((keytao_lookup_by_code code (.ok raws)).phrases.map (fun r => r.position) =
          List.range (keytao_lookup_by_code code (.ok raws)).phrases.length) ∧
      ((keytao_lookup_by_code code (.ok raws)).phrases.map (fun r => r.position_label) =
          (List.range (keytao_lookup_by_code code (.ok raws)).phrases.length).map
            (fun i =>
              if 1 < (keytao_lookup_by_code code (.ok raws)).phrases.length ∧ 0 < i then
                position_labels i
              else "")) ∧
      List.Pairwise (fun (a b : Int) => a ≤ b)
        ((keytao_lookup_by_code code (.ok raws)).phrases.map (fun r => r.weight))) ∧
    (keytao_lookup_by_code "ri" (.ok
        [{ word := some "天", code := some "ri", weight := some 100 },
         { word := some "地", code := some "ri", weight := some 105 },
         { word := some "人", code := some "ri", weight := some 110 }])).phrases.map
      (fun r => r.position_label) = ["", "二重", "三重"] := by
  constructor
  · intro code raws
    by_cases hr : raws.isEmpty
    · simp [keytao_lookup_by_code, hr]
    · by_cases he : (raws.filter (fun p => pcode p == code)).isEmpty
      · simp [keytao_lookup_by_code, hr, he]
      · have hsorted : List.Sorted wle
            ((raws.filter (fun p => pcode p == code)).insertionSort wle) :=
          List.sorted_insertionSort wle _
        refine ⟨?_, ?_, ?_⟩
        · simp only [keytao_lookup_by_code, hr, he, Bool.false_eq_true, if_false]
          rw [build_result_phrases_map_position, build_result_phrases_length,
            List.range_eq_range']
        · simp only [keytao_lookup_by_code, hr, he, Bool.false_eq_true, if_false]
          rw [build_result_phrases_map_label, build_result_phrases_length,
            List.range_eq_range']
        · simp only [keytao_lookup_by_code, hr, he, Bool.false_eq_true, if_false]
          rw [build_result_phrases_map_weight]
          exact List.pairwise_map.mpr hsorted
  · decide

/-- C5: every phrase in a successful `keytao_lookup_by_code` result has a
`code` field exactly equal to the query; entries the backend returned under any
other code (e.g. "rig" when querying "ri") are discarded. -/
theorem C5_lookup_keeps_only_exact_code_matches :
    (∀ (code : String) (raws : List RawPhrase),
      ((keytao_lookup_by_code code (.ok raws)).phrases.all
          (fun r => r.code == code)) = true) ∧
    (keytao_lookup_by_code "ri" (.ok
        [{ word := some "日", code := some "ri", weight := some 100 },
         { word := some "格", code := some "rig", weight := some 100 }])).phrases.map
      (fun r => r.word) = ["日"] := by
  constructor
  · intro code raws
    by_cases hr : raws.isEmpty
    · simp [keytao_lookup_by_code, hr]
    · by_cases he : (raws.filter (fun p => pcode p == code)).isEmpty
      · simp [keytao_lookup_by_code, hr, he]
      · simp only [keytao_lookup_by_code, hr, he, Bool.false_eq_true, if_false]
        rw [List.all_eq_true]
        intro r hr'
        have hmem : r.code ∈
            (build_result_phrases
              ((raws.filter (fun p => pcode p == code)).insertionSort wle).length 0
              ((raws.filter (fun p => pcode p == code)).insertionSort wle)).map
              (fun r => r.code) :=
          List.mem_map_of_mem _ hr'
        rw [build_result_phrases_map_code] at hmem
        obtain ⟨p, hp, hpc⟩ := List.mem_map.mp hmem
        have hp' : p ∈ raws.filter (fun p => pcode p == code) :=
          (List.perm_insertionSort wle _).mem_iff.mp hp
        have hcode := List.of_mem_filter hp'
        rw [← hpc]
        exact hcode
  · decide

/-- C6: when the backend responds but zero entries exactly match the query,
`keytao_lookup_by_code` returns `success := true` with an empty phrase list;
and on any request failure (transport error, non-2xx status, bad JSON — all of
which raise and land in the `except` clause) it returns `success := false`
together with an error string and an empty phrase list, never raising. -/
theorem C6_lookup_no_match_is_success_and_failure_is_soft :
    (∀ (code : String) (raws : List RawPhrase),
      raws.filter (fun p => pcode p == code) = [] →
        keytao_lookup_by_code code (.ok raws) =
          { success := true, code := code, phrases := [] }) ∧
    (∀ (code e : String),
      keytao_lookup_by_code code (.fail e) =
        { success := false, code := code, error := some e, phrases := [] }) := by
  constructor
  · intro code raws h
    by_cases hr : raws.isEmpty
    · simp [keytao_lookup_by_code, hr]
    · simp [keytao_lookup_by_code, hr, h]
  · intro code e
    rfl

/-- Witness for C6 at a concrete input: a backend response carrying only the
near-match code "rig" for the query "ri". -/
theorem C6_lookup_no_match_witness :
    ([({ word := some "格", code := some "rig", weight := some 100 } : RawPhrase)].filter
        (fun p => pcode p == "ri") = []) ∧
    keytao_lookup_by_code "ri"
        (.ok [{ word := some "格", code := some "rig", weight := some 100 }]) =
      { success := true, code := "ri", phrases := [] } :=
  ⟨by decide,
   C6_lookup_no_match_is_success_and_failure_is_soft.1 "ri"
     [{ word := some "格", code := some "rig", weight := some 100 }] (by decide)⟩

/-! ## C2, C3 — create skill -/

/-- C2: contrary to the claim (and to the repository's own system prompt,
which tells the model the tools auto-manage the draft batch and that
`keytao_submit_batch()` needs no parameters), the implemented tools never call
`GET /api/bot/batches/latest-draft`: `keytao_create_phrase` issues exactly one
request, a POST whose body has no `batchId` field, `keytao_submit_batch`
issues exactly one POST, and its URL depends on the caller-supplied
`batch_id` parameter. -/
theorem C2_no_latest_draft_resolution :
    (∀ (base : String) (a : CreateArgs),
      ((keytao_create_phrase_requests base a).all isPost = true) ∧
      ((keytao_create_phrase_requests base a).length = 1) ∧
      jget (create_request_data a) "batchId" = none) ∧
    (∀ (base platform platform_id batch_id : String),
      ((keytao_submit_batch_requests base platform platform_id batch_id).all
          isPost = true) ∧
      (keytao_submit_batch_requests base platform platform_id batch_id).length = 1) ∧
    keytao_submit_batch_url "https://keytao.vercel.app" "batch-a" ≠
      keytao_submit_batch_url "https://keytao.vercel.app" "batch-b" :=
  ⟨fun _ _ => ⟨rfl, rfl, rfl⟩, fun _ _ _ _ => ⟨rfl, rfl⟩, by decide⟩

/-- C3 counterexample: calling `keytao_create_phrase` with `word="hello"` and
`type` left at its default sends `type="Phrase"` to the backend, not the
`English` the claimed auto-detection heuristic would produce — no heuristic
runs at all. -/
theorem C3_counterexample_hello_is_sent_as_phrase :
    jget (create_request_data
        { platform := "qq", platform_id := "10001", word := "hello", code := "uu" })
      "items" =
      some (.arr [.obj [("action", .str "Create"), ("word", .str "hello"),
                        ("oldWord", .null), ("code", .str "uu"),
                        ("type", .str "Phrase"), ("remark", .null)]]) ∧
    ("Phrase" : String) ≠ "English" :=
  ⟨rfl, by decide⟩

/-- C3 amended: `keytao_create_phrase` forwards its `type` parameter to the
backend verbatim; when `type` is left at its default, the literal default
`Phrase` is sent whatever `word` and `code` are (so word="hello",
word="https://x.com" and word="气" all yield `Phrase`). -/
theorem C3_type_parameter_forwarded_verbatim :
    (∀ (a : CreateArgs),
      jget (create_request_data a) "items" =
        some (.arr [.obj [("action", .str a.action), ("word", .str a.word),
                          ("oldWord", optStr a.old_word), ("code", .str a.code),
                          ("type", .str a.type), ("remark", optStr a.remark)]])) ∧
    (∀ (platform platform_id word code : String),
      jget (create_request_data
          { platform := platform, platform_id := platform_id,
            word := word, code := code }) "items" =
        some (.arr [.obj [("action", .str "Create"), ("word", .str word),
                          ("oldWord", .null), ("code", .str code),
                          ("type", .str "Phrase"), ("remark", .null)]])) :=
  ⟨fun _ => rfl, fun _ _ _ _ => rfl⟩

/-! ## JSON object update lemmas -/

theorem jgetFields_jsetFields_same (fields : List (String × JVal)) (key : String)
    (v : JVal) :
    jgetFields (jsetFields fields key v) key = some v := by
  induction fields with
  | nil => simp [jsetFields, jgetFields]
  | cons kv t ih =>
    obtain ⟨k, w⟩ := kv
    by_cases hk : (k == key) = true
    · simp [jsetFields, hk, jgetFields]
    · simp only [Bool.not_eq_true] at hk
      simp [jsetFields, hk, jgetFields, ih]

theorem jgetFields_jsetFields_ne (fields : List (String × JVal)) (key k' : String)
    (v : JVal) (h : key ≠ k') :
    jgetFields (jsetFields fields key v) k' = jgetFields fields k' := by
  have hkey : (key == k') = false := by
    simpa using h
  induction fields with
  | nil => simp [jsetFields, jgetFields, hkey]
  | cons kv t ih =>
    obtain ⟨k, w⟩ := kv
    by_cases hk : (k == key) = true
    · have hkeq : k = key := by simpa using hk
      have hk' : (k == k') = false := by
        simp [hkeq]
        exact h
      simp [jsetFields, hk, jgetFields, hkey, hk']
    · simp only [Bool.not_eq_true] at hk
      by_cases hk' : (k == k') = true
      · simp [jsetFields, hk, jgetFields, hk']
      · simp only [Bool.not_eq_true] at hk'
        simp [jsetFields, hk, jgetFields, hk', ih]

/-! ## C10 — platform identity auto-injection -/

/-- C10: for the two mutation tools executed with a bot and event present, the
`platform` / `platform_id` arguments actually passed to the tool are the ones
derived from the event by `extract_platform_info`, overwriting whatever the
model supplied; two calls differing only in model-supplied arguments carry the
same identity. -/
theorem C10_mutation_identity_from_event_only :
    ∀ (tool_name platform platform_id : String)
      (f1 f2 : List (String × JVal)),
      (tool_name = "keytao_create_phrase" ∨ tool_name = "keytao_submit_batch") →
      (jget (inject_platform_args tool_name (.obj f1) (some (platform, platform_id)))
          "platform" = some (.str platform) ∧
       jget (inject_platform_args tool_name (.obj f1) (some (platform, platform_id)))
          "platform_id" = some (.str platform_id) ∧
       jget (inject_platform_args tool_name (.obj f1) (some (platform, platform_id)))
          "platform" =
         jget (inject_platform_args tool_name (.obj f2) (some (platform, platform_id)))
          "platform" ∧
       jget (inject_platform_args tool_name (.obj f1) (some (platform, platform_id)))
          "platform_id" =
         jget (inject_platform_args tool_name (.obj f2) (some (platform, platform_id)))
          "platform_id") := by
  intro tool_name platform platform_id f1 f2 h
  have hcond : (tool_name == "keytao_create_phrase" ||
      tool_name == "keytao_submit_batch") = true := by
    rcases h with h | h <;> simp [h]
  have key_ne : "platform_id" ≠ "platform" := by decide
  have main : ∀ (f : List (String × JVal)),
      jget (inject_platform_args tool_name (.obj f) (some (platform, platform_id)))
          "platform" = some (.str platform) ∧
      jget (inject_platform_args tool_name (.obj f) (some (platform, platform_id)))
          "platform_id" = some (.str platform_id) := by
    intro f
    simp only [inject_platform_args, hcond, if_true, jset, jget]
    exact ⟨by rw [jgetFields_jsetFields_ne _ _ _ _ key_ne,
                  jgetFields_jsetFields_same],
           jgetFields_jsetFields_same _ _ _⟩
  obtain ⟨h1, h2⟩ := main f1
  obtain ⟨h3, h4⟩ := main f2
  exact ⟨h1, h2, by rw [h1, h3], by rw [h2, h4]⟩

/-- Witness for C10: the model supplied a foreign identity
(`platform="telegram"`, `platform_id="999"`), the event says qq/10001; the
injected arguments carry the event identity, identically to a call where the
model supplied nothing. -/
theorem C10_mutation_identity_witness :
    jget (inject_platform_args "keytao_create_phrase"
        (.obj [("platform", .str "telegram"), ("platform_id", .str "999"),
               ("word", .str "测试"), ("code", .str "ceui")])
        (some ("qq", "10001"))) "platform" = some (.str "qq") ∧
    jget (inject_platform_args "keytao_create_phrase"
        (.obj [("platform", .str "telegram"), ("platform_id", .str "999"),
               ("word", .str "测试"), ("code", .str "ceui")])
        (some ("qq", "10001"))) "platform_id" = some (.str "10001") ∧
    jget (inject_platform_args "keytao_create_phrase"
        (.obj [("platform", .str "telegram"), ("platform_id", .str "999"),
               ("word", .str "测试"), ("code", .str "ceui")])
        (some ("qq", "10001"))) "platform" =
      jget (inject_platform_args "keytao_create_phrase"
        (.obj [("word", .str "测试"), ("code", .str "ceui")])
        (some ("qq", "10001"))) "platform" ∧
    jget (inject_platform_args "keytao_create_phrase"
        (.obj [("platform", .str "telegram"), ("platform_id", .str "999"),
               ("word", .str "测试"), ("code", .str "ceui")])
        (some ("qq", "10001"))) "platform_id" =
      jget (inject_platform_args "keytao_create_phrase"
        (.obj [("word", .str "测试"), ("code", .str "ceui")])
        (some ("qq", "10001"))) "platform_id" :=
  C10_mutation_identity_from_event_only "keytao_create_phrase" "qq" "10001"
    [("platform", .str "telegram"), ("platform_id", .str "999"),
     ("word", .str "测试"), ("code", .str "ceui")]
    [("word", .str "测试"), ("code", .str "ceui")]
    (Or.inl rfl)

/-! ## C1 — confirmation safety net -/

/-- C1 counterexample: the user replies with the bare affirmative "嗯" (one of
the tokens the claim lists), no negation token is present, a recent tool
result shows an unresolved warning, and the model's `keytao_create_phrase`
call omits `confirmed` — yet the orchestrator leaves the arguments untouched,
because its confirmation keyword list is 确认/是/好/可以/同意/yes/ok/确定 and
does not include 嗯 (nor 行). -/
theorem C1_counterexample_bare_en_not_forced :
    (pyContains (pyLower (pyStrip "嗯")) "嗯" = true) ∧
    (negation_keywords.all (fun kw => !pyContains (pyLower (pyStrip "嗯")) kw) = true) ∧
    (had_warning [warn_tool_msg] = true) ∧
    (truthy (jget (.obj [("word", .str "测试"), ("code", .str "ceui")]) "confirmed")
      = false) ∧
    autofix_confirmed "嗯" (.obj [("word", .str "测试"), ("code", .str "ceui")])
        [warn_tool_msg] =
      .obj [("word", .str "测试"), ("code", .str "ceui")] :=
  ⟨by decide, by decide, by decide, by decide, rfl⟩

/-- C1 amended: with the affirmative token list the code actually checks
(确认/是/好/可以/同意/yes/ok/确定 — without 嗯/行), whenever the stripped,
lower-cased user text contains an affirmative token and no negation token,
the model's call omits a truthy `confirmed`, and a recent message shows an
unresolved warning, the orchestrator forces `confirmed=true`; and whenever a
negation token is present it never touches the arguments. -/
theorem C1_autofix_forces_confirmed :
    (∀ (plaintext : String) (fields : List (String × JVal)) (messages : List Msg),
      confirmation_keywords.any
          (fun kw => pyContains (pyLower (pyStrip plaintext)) kw) = true →
      negation_keywords.any
          (fun kw => pyContains (pyLower (pyStrip plaintext)) kw) = false →
      truthy (jget (.obj fields) "confirmed") = false →
      had_warning messages = true →
      jget (autofix_confirmed plaintext (.obj fields) messages) "confirmed" =
        some (.bool true)) ∧
    (∀ (plaintext : String) (args : JVal) (messages : List Msg),
      negation_keywords.any
          (fun kw => pyContains (pyLower (pyStrip plaintext)) kw) = true →
      autofix_confirmed plaintext args messages = args) := by
  constructor
  · intro plaintext fields messages haff hneg hconf hwarn
    have hconf' : truthy (jgetFields fields "confirmed") = false := hconf
    unfold autofix_confirmed
    simp only [haff, hneg, hconf', hwarn, Bool.not_false, Bool.and_self, if_true,
      Bool.and_true, Bool.true_and, jset, jget]
    exact jgetFields_jsetFields_same fields "confirmed" (.bool true)
  · intro plaintext args messages hneg
    unfold autofix_confirmed
    simp [hneg]

/-- Witness for C1 at a concrete input: the user says "确认" after a warning
and the model's arguments omit `confirmed`. -/
theorem C1_autofix_forces_confirmed_witness :
    jget (autofix_confirmed "确认" (.obj [("word", .str "测试"), ("code", .str "ceui")])
        [warn_tool_msg]) "confirmed" = some (.bool true) :=
  C1_autofix_forces_confirmed.1 "确认"
    [("word", .str "测试"), ("code", .str "ceui")] [warn_tool_msg]
    (by decide) (by decide) (by decide) (by decide)

/-! ## C7 — iteration cap -/

theorem tool_call_loop_calls_le (registry : String → Option (JVal → JVal))
    (ctx : Option (String × String)) (plaintext : String)
    (llm : List Msg → LLMResp) :
    ∀ (fuel : Nat) (messages : List Msg) (calls : Nat),
      (tool_call_loop registry ctx plaintext llm fuel messages calls).1 ≤
        calls + fuel := by
  intro fuel
  induction fuel with
  | zero =>
    intro messages calls
    simp [tool_call_loop]
  | succ n ih =>
    intro messages calls
    unfold tool_call_loop
    cases h : llm messages with
    | noChoices =>
      simp only
      omega
    | reply fin content tcs =>
      by_cases h1 : (fin == "stop" || tcs.isEmpty) = true
      · simp only [h1, if_true]
        omega
      · by_cases h2 : (fin == "tool_calls" && !tcs.isEmpty) = true
        · simp only [h1, Bool.false_eq_true, if_false, h2, if_true]
          have := ih (exec_tool_calls registry ctx plaintext tcs
            (messages ++ [{ role := "assistant", content := contentMsgC content }]))
            (calls + 1)
          omega
        · simp only [h1, Bool.false_eq_true, if_false, h2]
          omega

theorem tool_call_loop_always_tools (registry : String → Option (JVal → JVal))
    (ctx : Option (String × String)) (plaintext : String)
    (llm : List Msg → LLMResp)
    (h : ∀ messages, ∃ (content : Option String) (tcs : List ToolCall),
        tcs ≠ [] ∧ llm messages = .reply "tool_calls" content tcs) :
    ∀ (fuel : Nat) (messages : List Msg) (calls : Nat),
      tool_call_loop registry ctx plaintext llm fuel messages calls =
        (calls + fuel, some too_long_msg) := by
  intro fuel
  induction fuel with
  | zero =>
    intro messages calls
    simp [tool_call_loop]
  | succ n ih =>
    intro messages calls
    obtain ⟨content, tcs, hne, heq⟩ := h messages
    unfold tool_call_loop
    rw [heq]
    have hstop : (("tool_calls" == "stop") = false) := by decide
    have hempty : tcs.isEmpty = false := by
      simpa [List.isEmpty_iff] using hne
    have harith : calls + 1 + n = calls + (n + 1) := by omega
    simp only [hstop, hempty, Bool.or_self, Bool.false_eq_true, if_false,
      Bool.not_false, Bool.and_true, beq_self_eq_true, if_true, ih, harith]

/-- C7: the tool-calling loop of `get_openai_response` makes at most 6
chat-completion requests; a model that requests tool calls on every iteration
receives exactly 6 round-trips and the function returns the fixed "took too
long" apology instead of looping further. -/
theorem C7_at_most_six_llm_roundtrips :
    (∀ (registry : String → Option (JVal → JVal))
       (ctx : Option (String × String)) (plaintext : String)
       (llm : List Msg → LLMResp) (initial : List Msg),
       (get_openai_response registry ctx plaintext llm initial).1 ≤ 6) ∧
    (∀ (registry : String → Option (JVal → JVal))
       (ctx : Option (String × String)) (plaintext : String)
       (llm : List Msg → LLMResp) (initial : List Msg),
       (∀ messages, ∃ (content : Option String) (tcs : List ToolCall),
          tcs ≠ [] ∧ llm messages = .reply "tool_calls" content tcs) →
       get_openai_response registry ctx plaintext llm initial =
         (6, some too_long_msg)) := by
  constructor
  · intro registry ctx plaintext llm initial
    simpa using tool_call_loop_calls_le registry ctx plaintext llm 6 initial 0
  · intro registry ctx plaintext llm initial h
    simpa using tool_call_loop_always_tools registry ctx plaintext llm h 6 initial 0

/-- Witness for C7: a mock model that always requests the same tool call. -/
theorem C7_at_most_six_llm_roundtrips_witness :
    get_openai_response (fun _ => none) none ""
        (fun _ => .reply "tool_calls" none
          [{ id := "call1", name := "keytao_lookup_by_code",
             args := .obj [("code", .str "nau")] }]) [] =
      (6, some too_long_msg) :=
  C7_at_most_six_llm_roundtrips.2 (fun _ => none) none ""
    (fun _ => .reply "tool_calls" none
      [{ id := "call1", name := "keytao_lookup_by_code",
         args := .obj [("code", .str "nau")] }]) []
    (fun _ => ⟨none,
      [{ id := "call1", name := "keytao_lookup_by_code",
         args := .obj [("code", .str "nau")] }], by simp, rfl⟩)

/-! ## C8 — conversation history store -/

theorem filter_cleared_is_nil (st : List Row) (platform user_id : String) :
    (st.filter (fun r => !rowMatches platform user_id r)).filter
      (rowMatches platform user_id) = [] := by
  induction st with
  | nil => rfl
  | cons r t ih =>
    by_cases h : rowMatches platform user_id r
    · simp [List.filter_cons, h, ih]
    · simp only [Bool.not_eq_true] at h
      simp [List.filter_cons, h, ih]

/-- C8: `get_history` returns at most `limit` messages of the identity, in
chronological (ascending-timestamp) order, as `{role, content, timestamp}`
records; every identity row left out is no newer than any returned one;
`clear_history` returns the number of the identity's rows and a subsequent
read returns the empty list. -/
theorem C8_get_history_returns_recent_in_order :
    ∀ (st : List Row) (platform user_id : String) (limit : Nat),
      ((get_history st platform user_id limit).length =
        min limit (st.filter (rowMatches platform user_id)).length) ∧
      List.Pairwise (fun (a b : HMsg) => a.timestamp ≤ b.timestamp)
        (get_history st platform user_id limit) ∧
      (∀ m ∈ get_history st platform user_id limit,
        ∃ r ∈ st, rowMatches platform user_id r = true ∧
          m = { role := r.role, content := r.content, timestamp := r.timestamp }) ∧
      (∀ r ∈ st, rowMatches platform user_id r = true →
        r.timestamp ∉ (get_history st platform user_id limit).map
          (fun m => m.timestamp) →
        ∀ m ∈ get_history st platform user_id limit, r.timestamp ≤ m.timestamp) ∧
      ((clear_history st platform user_id).1 =
        (st.filter (rowMatches platform user_id)).length) ∧
      get_history (clear_history st platform user_id).2 platform user_id limit
        = [] := by
  intro st platform user_id limit
  have hsorted : List.Sorted tsDesc
      ((st.filter (rowMatches platform user_id)).insertionSort tsDesc) :=
    List.sorted_insertionSort tsDesc _
  have hperm :=
    List.perm_insertionSort tsDesc (st.filter (rowMatches platform user_id))
  refine ⟨?_, ?_, ?_, ?_, rfl, ?_⟩
  · simp [get_history, hperm.length_eq]
  · have htake : List.Pairwise tsDesc
        (((st.filter (rowMatches platform user_id)).insertionSort tsDesc).take
          limit) :=
      List.Pairwise.sublist (List.take_sublist _ _) hsorted
    have hrev : List.Pairwise (fun a b : Row => a.timestamp ≤ b.timestamp)
        ((((st.filter (rowMatches platform user_id)).insertionSort tsDesc).take
          limit).reverse) :=
      List.pairwise_reverse.mpr (htake.imp (fun h => h))
    simp only [get_history]
    exact List.pairwise_map.mpr (hrev.imp (fun h => h))
  · simp only [get_history]
    intro m hm
    obtain ⟨r, hr, hfr⟩ := List.mem_map.mp hm
    have hrT : r ∈
        ((st.filter (rowMatches platform user_id)).insertionSort tsDesc) :=
      (List.take_sublist _ _).subset (List.mem_reverse.mp hr)
    have hrF := hperm.mem_iff.mp hrT
    obtain ⟨hrst, hrmatch⟩ := List.mem_filter.mp hrF
    exact ⟨r, hrst, hrmatch, hfr.symm⟩
  · simp only [get_history]
    intro r hrst hmatch hnot m hm
    obtain ⟨rm, hrm, hfrm⟩ := List.mem_map.mp hm
    have hrmT : rm ∈
        (((st.filter (rowMatches platform user_id)).insertionSort tsDesc).take
          limit) :=
      List.mem_reverse.mp hrm
    have hrF : r ∈ st.filter (rowMatches platform user_id) :=
      List.mem_filter.mpr ⟨hrst, hmatch⟩
    have hrS : r ∈
        ((st.filter (rowMatches platform user_id)).insertionSort tsDesc) :=
      hperm.mem_iff.mpr hrF
    have hrT : r ∉
        (((st.filter (rowMatches platform user_id)).insertionSort tsDesc).take
          limit) := by
      intro hin
      apply hnot
      have hts : r.timestamp ∈
          ((((st.filter (rowMatches platform user_id)).insertionSort
            tsDesc).take limit).reverse).map (fun x => x.timestamp) :=
        List.mem_map_of_mem _ (List.mem_reverse.mpr hin)
      simpa [List.map_map, Function.comp] using hts
    have hrD : r ∈
        ((st.filter (rowMatches platform user_id)).insertionSort tsDesc).drop
          limit := by
      have hsplit := List.take_append_drop limit
        ((st.filter (rowMatches platform user_id)).insertionSort tsDesc)
      rcases List.mem_append.mp (by rw [hsplit]; exact hrS) with h | h
      · exact absurd h hrT
      · exact h
    have hpair := hsorted
    rw [← List.take_append_drop limit
      ((st.filter (rowMatches platform user_id)).insertionSort tsDesc)] at hpair
    have hcross := (List.pairwise_append.mp hpair).2.2 rm hrmT r hrD
    rw [← hfrm]
    exact hcross
  · simp [get_history, clear_history, filter_cleared_is_nil]

/-- Witness for C8: 40 rows (timestamps 1..40) for one identity; a read with
limit 30 returns exactly the rows with timestamps 11..40 in chronological
order, `clear_history` reports 40 deleted, and a subsequent read is empty. -/
theorem C8_get_history_witness :
    (get_history demo_history_rows "qq" "1" 30 =
      (List.range 30).map (fun j =>
        { role := "user", content := "hi", timestamp := j + 11 })) ∧
    ((clear_history demo_history_rows "qq" "1").1 = 40) ∧
    (get_history (clear_history demo_history_rows "qq" "1").2 "qq" "1" 30 = []) ∧
    ((get_history demo_history_rows "qq" "1" 30).length =
      min 30 (demo_history_rows.filter (rowMatches "qq" "1")).length) :=
  ⟨by decide, by decide, by decide,
   (C8_get_history_returns_recent_in_order demo_history_rows "qq" "1" 30).1⟩

/-! ## C9 — docs skill: split/join, dedup and front-matter lemmas -/

theorem splitLinesChars_ne_nil : ∀ (l : List Char), splitLinesChars l ≠ []
  | [] => by simp [splitLinesChars]
  | c :: rest => by
    simp only [splitLinesChars]
    cases h : splitLinesChars rest with
    | nil => simp
    | cons a as =>
      by_cases hc : (c == '\n') = true
      · simp [hc]
      · simp only [Bool.not_eq_true] at hc
        simp [hc]

theorem splitLinesChars_no_newline :
    ∀ (l : List Char), '\n' ∉ l → splitLinesChars l = [l]
  | [], _ => rfl
  | c :: rest, h => by
    have hc : c ≠ '\n' := by
      intro hcc
      exact h (by rw [hcc]; exact List.mem_cons_self _ _)
    have hr : '\n' ∉ rest := fun hm => h (List.mem_cons_of_mem c hm)
    have ih := splitLinesChars_no_newline rest hr
    have hxb : (c == '\n') = false := by simpa using hc
    simp [splitLinesChars, ih, hxb]

theorem splitLinesChars_append_newline :
    ∀ (xs ys : List Char), '\n' ∉ xs →
      splitLinesChars (xs ++ '\n' :: ys) = xs :: splitLinesChars ys
  | [], ys, _ => by
    simp only [List.nil_append, splitLinesChars]
    cases h : splitLinesChars ys with
    | nil => exact absurd h (splitLinesChars_ne_nil ys)
    | cons a as => simp
  | x :: t, ys, h => by
    have hx : x ≠ '\n' := by
      intro hcc
      exact h (by rw [hcc]; exact List.mem_cons_self _ _)
    have ht : '\n' ∉ t := fun hm => h (List.mem_cons_of_mem x hm)
    have ih := splitLinesChars_append_newline t ys ht
    have hxb : (x == '\n') = false := by simpa using hx
    simp [splitLinesChars, ih, hxb]

theorem splitLinesChars_joinLines :
    ∀ (L : List (List Char)), L ≠ [] → (∀ l ∈ L, '\n' ∉ l) →
      splitLinesChars (joinLines L) = L
  | [], h, _ => absurd rfl h
  | [l], _, hnl => by
    simp only [joinLines]
    exact splitLinesChars_no_newline l (hnl l (List.mem_cons_self _ _))
  | l :: l2 :: ls, _, hnl => by
    have ih := splitLinesChars_joinLines (l2 :: ls) (by simp)
      (fun x hx => hnl x (List.mem_cons_of_mem l hx))
    simp only [joinLines]
    rw [splitLinesChars_append_newline _ _ (hnl l (List.mem_cons_self _ _)), ih]

theorem findIdx?_append_first {α : Type} (p : α → Bool) (y : α) (ys : List α) :
    ∀ (xs : List α), (∀ x ∈ xs, p x = false) → p y = true →
      List.findIdx? p (xs ++ y :: ys) = some xs.length := by
  intro xs
  induction xs with
  | nil =>
    intro _ hy
    simp [List.findIdx?_cons, hy]
  | cons x t ih =>
    intro h hy
    have hx : p x = false := h x (List.mem_cons_self x t)
    simp [List.findIdx?_cons, hx,
      ih (fun z hz => h z (List.mem_cons_of_mem x hz)) hy]

theorem strip_frontmatter_block (fm body : List (List Char))
    (hfm : ['-', '-', '-'] ∉ fm) :
    strip_frontmatter (['-', '-', '-'] :: (fm ++ ['-', '-', '-'] :: body)) = body := by
  have hfind : List.findIdx? (fun l => l == ['-', '-', '-'])
      (fm ++ ['-', '-', '-'] :: body) = some fm.length := by
    apply findIdx?_append_first
    · intro x hx
      exact beq_eq_false_iff_ne.mpr (fun hcontr => hfm (hcontr ▸ hx))
    · simp
  simp only [strip_frontmatter, hfind]
  rw [if_pos (by decide)]
  rw [List.drop_succ_cons]
  have hsplit : fm ++ ['-', '-', '-'] :: body = (fm ++ [['-', '-', '-']]) ++ body := by
    simp
  rw [hsplit, List.drop_left' (by simp)]

theorem pyDedupAux_subset {α : Type} [BEq α] :
    ∀ (l : List α) (seen : List α) (a : α), a ∈ pyDedupAux seen l → a ∈ l
  | [], _, _, h => by simp [pyDedupAux] at h
  | b :: t, seen, a, h => by
    by_cases hb : seen.contains b
    · simp only [pyDedupAux, hb, if_true] at h
      exact List.mem_cons_of_mem b (pyDedupAux_subset t seen a h)
    · simp only [Bool.not_eq_true] at hb
      simp only [pyDedupAux, hb, Bool.false_eq_true, if_false,
        List.mem_cons] at h
      rcases h with h | h
      · exact h ▸ List.mem_cons_self b t
      · exact List.mem_cons_of_mem b (pyDedupAux_subset t (b :: seen) a h)

theorem pyDedupAux_not_mem_seen {α : Type} [BEq α] [LawfulBEq α] :
    ∀ (l : List α) (seen : List α) (a : α), a ∈ pyDedupAux seen l → a ∉ seen
  | [], _, _, h => by simp [pyDedupAux] at h
  | b :: t, seen, a, h => by
    by_cases hb : seen.contains b
    · simp only [pyDedupAux, hb, if_true] at h
      exact pyDedupAux_not_mem_seen t seen a h
    · simp only [Bool.not_eq_true] at hb
      simp only [pyDedupAux, hb, Bool.false_eq_true, if_false,
        List.mem_cons] at h
      rcases h with h | h
      · subst h
        intro hmem
        rw [List.contains_eq_any_beq] at hb
        have : seen.any (fun x => a == x) = true := by
          rw [List.any_eq_true]
          exact ⟨a, hmem, by simp⟩
        rw [this] at hb
        simp at hb
      · have := pyDedupAux_not_mem_seen t (b :: seen) a h
        exact fun hmem => this (List.mem_cons_of_mem b hmem)

theorem pyDedupAux_nodup {α : Type} [BEq α] [LawfulBEq α] :
    ∀ (l : List α) (seen : List α), (pyDedupAux seen l).Nodup
  | [], _ => List.nodup_nil
  | b :: t, seen => by
    by_cases hb : seen.contains b
    · simp only [pyDedupAux, hb, if_true]
      exact pyDedupAux_nodup t seen
    · simp only [Bool.not_eq_true] at hb
      simp only [pyDedupAux, hb, Bool.false_eq_true, if_false]
      refine List.nodup_cons.mpr ⟨?_, pyDedupAux_nodup t (b :: seen)⟩
      intro hmem
      have := pyDedupAux_not_mem_seen t (b :: seen) b hmem
      exact this (List.mem_cons_self b seen)

theorem pyDedup_nodup {α : Type} [BEq α] [LawfulBEq α] (l : List α) :
    (pyDedup l).Nodup :=
  pyDedupAux_nodup l []

theorem pyDedup_subset {α : Type} [BEq α] (l : List α) (a : α)
    (h : a ∈ pyDedup l) : a ∈ l :=
  pyDedupAux_subset l [] a h

/-- C9: `keytao_fetch_docs` selects at most 3 documents, de-duplicated while
preserving first-seen order; each selected path comes from a keyword that
occurs as a substring of the query (raw or lower-cased); when no keyword
matches, exactly the single overview document is selected; and
`clean_markdown` removes a leading ---(front matter)--- block and truncates
the stripped remainder at 2000 code points, appending an ellipsis marker. -/
theorem C9_fetch_docs_selection_and_cleaning :
    (∀ (query : String),
      ((docs_to_fetch query).length ≤ 3) ∧
      (docs_to_fetch query).Nodup ∧
      ((∀ kv ∈ DOCS_MAPPING, keyword_matches query kv.1 = false) →
        docs_to_fetch query = ["guide/index.md"]) ∧
      (collected_docs query ≠ [] →
        ∀ p ∈ docs_to_fetch query, ∃ kv ∈ DOCS_MAPPING,
          keyword_matches query kv.1 = true ∧ p ∈ kv.2)) ∧
    (∀ (fm body : List (List Char)),
      ['-', '-', '-'] ∉ fm →
      (∀ l ∈ fm, '\n' ∉ l) →
      (∀ l ∈ body, '\n' ∉ l) →
      clean_markdown (joinLines (['-', '-', '-'] :: (fm ++ ['-', '-', '-'] :: body))) =
        (if 2000 < (pyStripChars (joinLines body)).length then
          (pyStripChars (joinLines body)).take 2000 ++
            ('\n' :: '\n' :: ['.', '.', '.'])
        else pyStripChars (joinLines body))) := by
  constructor
  · intro query
    refine ⟨?_, ?_, ?_, ?_⟩
    · simp only [docs_to_fetch]
      split
      · simp
      · simp [List.length_take]
    · simp only [docs_to_fetch]
      split
      · exact List.Nodup.sublist (List.take_sublist _ _) (pyDedup_nodup _)
      · exact List.Nodup.sublist (List.take_sublist _ _) (pyDedup_nodup _)
    · intro h
      have hfilter : DOCS_MAPPING.filter (fun kv => keyword_matches query kv.1) = [] := by
        rw [List.filter_eq_nil_iff]
        intro kv hkv
        simp [h kv hkv]
      simp only [docs_to_fetch, collected_docs, hfilter, List.map_nil,
        List.flatten_nil, List.isEmpty_nil, if_true]
      decide
    · intro hne p hp
      have hcoll : (collected_docs query).isEmpty = false := by
        simpa [List.isEmpty_iff] using hne
      simp only [docs_to_fetch, hcoll, Bool.false_eq_true, if_false] at hp
      have hp' : p ∈ collected_docs query :=
        pyDedup_subset _ _ ((List.take_sublist _ _).subset hp)
      simp only [collected_docs] at hp'
      obtain ⟨paths, hpaths, hpp⟩ := List.mem_flatten.mp hp'
      obtain ⟨kv, hkv, hkveq⟩ := List.mem_map.mp hpaths
      obtain ⟨hkvmem, hkvmatch⟩ := List.mem_filter.mp hkv
      exact ⟨kv, hkvmem, hkvmatch, hkveq ▸ hpp⟩
  · intro fm body hfm hfmnl hbodynl
    have hnl : ∀ l ∈ (['-', '-', '-'] :: (fm ++ ['-', '-', '-'] :: body)), '\n' ∉ l := by
      intro l hl
      simp only [List.mem_cons, List.mem_append] at hl
      rcases hl with h | h | h | h
      · subst h; decide
      · exact hfmnl l h
      · subst h; decide
      · exact hbodynl l h
    simp only [clean_markdown]
    rw [splitLinesChars_joinLines _ (by simp) hnl, strip_frontmatter_block fm body hfm]

/-- Witness for C9: the query 如何学习规则 matches the keywords 学习 and 规则;
the query 你好 matches nothing and selects the overview document; a small
front-mattered document cleans to its stripped body. -/
theorem C9_fetch_docs_witness :
    ((docs_to_fetch "如何学习规则").length ≤ 3) ∧
    (docs_to_fetch "如何学习规则").Nodup ∧
    (docs_to_fetch "你好" = ["guide/index.md"]) ∧
    clean_markdown (joinLines (['-', '-', '-'] ::
        ([['t', 'i', 't', 'l', 'e']] ++ ['-', '-', '-'] :: [['h', 'i']]))) =
      ['h', 'i'] := by
  refine ⟨(C9_fetch_docs_selection_and_cleaning.1 "如何学习规则").1,
          (C9_fetch_docs_selection_and_cleaning.1 "如何学习规则").2.1,
          (C9_fetch_docs_selection_and_cleaning.1 "你好").2.2.1 (by decide),
          ?_⟩
  have h := C9_fetch_docs_selection_and_cleaning.2 [['t', 'i', 't', 'l', 'e']]
    [['h', 'i']] (by decide) (by decide) (by decide)
  exact h.trans (by decide)

end KeytaoBot
